import Mathlib

/-!
Shallow embedding of the postcode-db-generator pipeline (src/main.rs,
src/batch_insert.rs): the streaming record-builder state machine, the
batch-insert worker pool, and the SQL deduplication pass, together with
theorems settling the specification's claims about them.
-/

namespace PostcodeDb

/-- sea_orm `ActiveValue` as this program uses it: a field is either not set
or set to a value (the `Unchanged` variant never occurs here). -/
inductive ActiveValue (α : Type) where
  | notSet : ActiveValue α
  | set : α → ActiveValue α
deriving Repr, DecidableEq

/-- `ActiveValue::is_set()`. -/
def ActiveValue.is_set {α : Type} : ActiveValue α → Bool
  | .notSet => false
  | .set _ => true

/-- `node::ActiveModel` restricted to the fields the program constructs
(src/main.rs lines 172-186).  Machine integers are embedded as `Nat`/`Int`,
`f64` coordinates as exact rationals, and `DateTime` as a numeric
timestamp. -/
structure NodeActiveModel where
  id : ActiveValue Nat
  lat : ActiveValue Rat
  lon : ActiveValue Rat
  version : ActiveValue Int
  updated_at : ActiveValue Nat
  city : ActiveValue (Option String)
  country : ActiveValue (Option String)
  postcode : ActiveValue String
  house_number : ActiveValue (Option String)
  street : ActiveValue (Option String)
  province : ActiveValue (Option String)
  source : ActiveValue (Option String)
  source_date : ActiveValue (Option Nat)
deriving Repr, DecidableEq

/-- `Default::default()` for the ActiveModel: every field `NotSet`. -/
def NodeActiveModel.default : NodeActiveModel :=
  { id := .notSet, lat := .notSet, lon := .notSet, version := .notSet,
    updated_at := .notSet, city := .notSet, country := .notSet,
    postcode := .notSet, house_number := .notSet, street := .notSet,
    province := .notSet, source := .notSet, source_date := .notSet }

instance : Inhabited NodeActiveModel := ⟨NodeActiveModel.default⟩

/-- `node_ready` (src/main.rs lines 52-54). -/
def node_ready (node : NodeActiveModel) : Bool :=
  node.id.is_set && node.postcode.is_set && node.street.is_set

/-- Value of a run of decimal digits. -/
def digitsToNat (l : List Char) : Nat :=
  l.foldl (fun acc c => acc * 10 + (c.toNat - '0'.toNat)) 0

/-- `value.parse::<u64>()`: a nonempty all-digit string within the u64
range (no sign, per Rust's unsigned grammar). -/
def parseU64 (s : String) : Option Nat :=
  if s.data ≠ [] ∧ s.data.all Char.isDigit = true ∧ digitsToNat s.data < 2 ^ 64 then
    some (digitsToNat s.data)
  else none

/-- `value.parse::<i32>()`: optional minus sign followed by digits within
the i32 range. -/
def parseI32 (s : String) : Option Int :=
  match s.data with
  | '-' :: rest =>
    if rest ≠ [] ∧ rest.all Char.isDigit = true ∧ digitsToNat rest ≤ 2 ^ 31 then
      some (-(digitsToNat rest : Int))
    else none
  | l =>
    if l ≠ [] ∧ l.all Char.isDigit = true ∧ digitsToNat l < 2 ^ 31 then
      some (digitsToNat l)
    else none

/-- `value.parse::<f64>()` on the plain decimal literals occurring in OSM
coordinates (optional sign, digits, optional fraction); exact rationals
stand in for binary floats. -/
def parseF64 (s : String) : Option Rat :=
  let signed : Rat × List Char :=
    match s.data with
    | '-' :: rest => (-1, rest)
    | l => (1, l)
  let intPart := signed.2.takeWhile Char.isDigit
  let rest := signed.2.dropWhile Char.isDigit
  if intPart = [] then none
  else
    match rest with
    | [] => some (signed.1 * (digitsToNat intPart : Rat))
    | '.' :: frac =>
      if frac ≠ [] ∧ frac.all Char.isDigit = true then
        some (signed.1 * ((digitsToNat intPart : Rat) +
          (digitsToNat frac : Rat) / ((10 : Rat) ^ frac.length)))
      else none
    | _ => none

/-- `DateTime::from_str`: the chrono datetime grammar is abstracted to a
numeric timestamp parser; what matters to the claims is only that some
inputs fail and how a failure is handled. -/
def parseDateTime (s : String) : Option Nat := parseU64 s

/-- `DateTime::default()` standing in for the epoch default timestamp. -/
def defaultTimestamp : Nat := 0

/-- `ParsedAttributeMap` (src/main.rs lines 63-70). -/
structure ParsedAttributeMap where
  id : Option Nat := none
  lat : Option Rat := none
  lon : Option Rat := none
  version : Option Int := none
  timestamp : Option Nat := none
deriving Repr, DecidableEq

/-- The attribute loop of the "node" arm (src/main.rs lines 128-144).
Each `.unwrap()` on a failed parse panics the whole run, embedded as
`Except.error`; a timestamp parse failure is absorbed by
`unwrap_or_default()` and replaced by the default timestamp. -/
def parseNodeAttrs : List (String × String) → ParsedAttributeMap →
    Except String ParsedAttributeMap
  | [], parsed => .ok parsed
  | (name, value) :: rest, parsed =>
    match name with
    | "id" =>
      match parseU64 value with
      | some v => parseNodeAttrs rest { parsed with id := some v }
      | none => .error "id: parse failed"
    | "lat" =>
      match parseF64 value with
      | some v => parseNodeAttrs rest { parsed with lat := some v }
      | none => .error "lat: parse failed"
    | "lon" =>
      match parseF64 value with
      | some v => parseNodeAttrs rest { parsed with lon := some v }
      | none => .error "lon: parse failed"
    | "version" =>
      match parseI32 value with
      | some v => parseNodeAttrs rest { parsed with version := some v }
      | none => .error "version: parse failed"
    | "timestamp" =>
      parseNodeAttrs rest
        { parsed with timestamp := some ((parseDateTime value).getD defaultTimestamp) }
    | _ => parseNodeAttrs rest parsed

/-- `ParsedElementEvent` (src/main.rs lines 56-60). -/
inductive ParsedElementEvent where
  | node : ParsedAttributeMap → ParsedElementEvent
  | tag : String → String → ParsedElementEvent
deriving Repr, DecidableEq

def isNodeEvent : ParsedElementEvent → Bool
  | .node _ => true
  | .tag _ _ => false

/-- `re_addr.replace(key, "")` with `re_addr = Regex::new("^addr:")`
(src/main.rs lines 82 and 189): strip one leading "addr:". -/
def stripAddr (k : String) : String :=
  if "addr:".data.isPrefixOf k.data then String.mk (k.data.drop 5) else k

/-- Rust `str::to_uppercase` (per-character uppercasing). -/
def toUpperStr (s : String) : String := String.mk (s.data.map Char.toUpper)

/-- Rust `str::replace(" ", "")`: remove every space character. -/
def removeSpaces (s : String) : String :=
  String.mk (s.data.filter (fun c => c != ' '))

/-- The mutable state of `parse_file`'s event loop: the current record,
the sticky province/country context, and the write buffer (the buffer is
modelled as the append-only log of pushed records; the periodic drain into
insert_many tasks neither drops nor reorders pushes). -/
structure ParseState where
  current_node : NodeActiveModel
  current_province : Option String
  current_country : Option String
  buffer : List NodeActiveModel
deriving Repr, DecidableEq

/-- The tag dispatch table (src/main.rs lines 189-207), applied to the
already-stripped key. -/
def dispatchTag (key value : String) (st : ParseState) : ParseState :=
  if key = "city" then
    { st with current_node := { st.current_node with city := .set (some value) } }
  else if key = "country" then
    let c : Option String := some value
    { st with current_country := c,
              current_node := { st.current_node with country := .set c } }
  else if key = "housenumber" then
    { st with current_node :=
        { st.current_node with house_number := .set (some (toUpperStr value)) } }
  else if key = "postcode" then
    { st with current_node :=
        { st.current_node with postcode := .set (removeSpaces (toUpperStr value)) } }
  else if key = "street" then
    { st with current_node := { st.current_node with street := .set (some value) } }
  else if key = "province" then
    let p : Option String := some value
    { st with current_province := p,
              current_node := { st.current_node with province := .set p } }
  else if key = "source" then
    { st with current_node := { st.current_node with source := .set (some value) } }
  else st

/-- A tag event: strip the addr: prefix, then dispatch. -/
def routeTag (tag_key value : String) (st : ParseState) : ParseState :=
  dispatchTag (stripAddr tag_key) value st

/-- The record constructed at a node-start event (src/main.rs lines
172-186), seeded from the sticky context. -/
def mkCurrentNode (now : Nat) (current_province current_country : Option String)
    (m : ParsedAttributeMap) : NodeActiveModel :=
  { id := m.id.elim ActiveValue.notSet ActiveValue.set,
    lat := m.lat.elim ActiveValue.notSet ActiveValue.set,
    lon := m.lon.elim ActiveValue.notSet ActiveValue.set,
    version := m.version.elim ActiveValue.notSet ActiveValue.set,
    updated_at := m.timestamp.elim (ActiveValue.set now) ActiveValue.set,
    city := .set none,
    country := .set current_country,
    postcode := .notSet,
    house_number := .set none,
    street := .set none,
    province := .set current_province,
    source := .set none,
    source_date := .set none }

/-- One step of the event loop (src/main.rs lines 166-209): a node-start
event finalizes the current record (pushing it iff ready) and starts a new
one; a tag event mutates the current record via the dispatch table. -/
def stepEvent (now : Nat) (st : ParseState) : ParsedElementEvent → ParseState
  | .node m =>
    { current_node := mkCurrentNode now st.current_province st.current_country m,
      current_province := st.current_province,
      current_country := st.current_country,
      buffer := if node_ready st.current_node then st.buffer ++ [st.current_node]
                else st.buffer }
  | .tag k v => routeTag k v st

/-- Initial state (src/main.rs lines 92-99). -/
def initState : ParseState :=
  { current_node := NodeActiveModel.default,
    current_province := none, current_country := none, buffer := [] }

def processEvents (now : Nat) (evs : List ParsedElementEvent) : ParseState :=
  evs.foldl (stepEvent now) initState

/-- End-of-stream finalization (src/main.rs lines 213-215). -/
def finalizeState (st : ParseState) : List NodeActiveModel :=
  if node_ready st.current_node then st.buffer ++ [st.current_node] else st.buffer

/-- All records pushed to the write buffer over a whole run, including the
end-of-stream push. -/
def finalBuffer (now : Nat) (evs : List ParsedElementEvent) : List NodeActiveModel :=
  finalizeState (processEvents now evs)

/-- The finalized (closed) records of a run: the value the current record
has at each node-start event and at end-of-stream, ready or not. -/
def closedRecordsAux (now : Nat) (st : ParseState) (closed : List NodeActiveModel) :
    List ParsedElementEvent → List NodeActiveModel
  | [] => closed ++ [st.current_node]
  | e :: rest =>
    match e with
    | .node _ => closedRecordsAux now (stepEvent now st e) (closed ++ [st.current_node]) rest
    | .tag _ _ => closedRecordsAux now (stepEvent now st e) closed rest

def closedRecords (now : Nat) (evs : List ParsedElementEvent) : List NodeActiveModel :=
  closedRecordsAux now initState [] evs

/-- Does this event set the sticky province (a tag whose stripped key is
"province")? -/
def setsProvince : ParsedElementEvent → Bool
  | .tag k _ => decide (stripAddr k = "province")
  | .node _ => false

/-- Does this event set the sticky country? -/
def setsCountry : ParsedElementEvent → Bool
  | .tag k _ => decide (stripAddr k = "country")
  | .node _ => false

def updProvince (acc : Option String) : ParsedElementEvent → Option String
  | .tag k v => if stripAddr k = "province" then some v else acc
  | .node _ => acc

def updCountry (acc : Option String) : ParsedElementEvent → Option String
  | .tag k v => if stripAddr k = "country" then some v else acc
  | .node _ => acc

/-- The value set by the nearest preceding province-setting tag event
(none when there is no such event). -/
def lastProvinceVal (evs : List ParsedElementEvent) : Option String :=
  evs.foldl updProvince none

def lastCountryVal (evs : List ParsedElementEvent) : Option String :=
  evs.foldl updCountry none

/-! ### The deduplication pass (src/main.rs lines 229-246) -/

/-- One stored row of the `node` table, with the columns named in the
dedup pass's SQL statements. -/
structure NodeRow where
  id : Nat
  lat : Rat
  lon : Rat
  city : Option String := none
  country : Option String := none
  postcode : String
  province : Option String := none
  street : Option String := none
  house_number : Option String := none
  source : Option String := none
  source_date : Option Nat := none
  updated_at : Nat := 0
  version : Int := 0
deriving Repr, DecidableEq, Inhabited

/-- The rows of the postcode group of `p`. -/
def rowsWithPostcode (rows : List NodeRow) (p : String) : List NodeRow :=
  rows.filter (fun r => decide (r.postcode = p))

/-- SQL `count(distinct street)` over a group: the number of distinct
non-NULL street values. -/
def distinctStreetCount (g : List NodeRow) : Nat :=
  ((g.filterMap (fun r => r.street)).dedup).length

/-- One aggregate row per postcode group: `AVG(lat)`, `AVG(lon)`, and the
non-aggregated (bare) columns taken from one representative row of the
group (SQLite leaves the representative unspecified; the model takes the
first row of the group). -/
def aggRow (g : List NodeRow) : NodeRow :=
  { g.headI with
    lat := (g.map (fun r => r.lat)).sum / (g.length : Rat),
    lon := (g.map (fun r => r.lon)).sum / (g.length : Rat) }

/-- `CREATE TABLE node_uniq AS SELECT id, AVG(lat), AVG(lon), ... FROM node
GROUP BY postcode HAVING count(distinct street) = 1` (line 231). -/
def uniqTable (rows : List NodeRow) : List NodeRow :=
  ((rows.map (fun r => r.postcode)).dedup).filterMap (fun p =>
    if distinctStreetCount (rowsWithPostcode rows p) = 1 then
      some (aggRow (rowsWithPostcode rows p))
    else none)

/-- `DELETE FROM node WHERE postcode IN (SELECT postcode FROM node_uniq)`
(line 237). -/
def deleteDuplicates (rows uniq : List NodeRow) : List NodeRow :=
  rows.filter (fun r => decide (r.postcode ∉ uniq.map (fun u => u.postcode)))

/-- `INSERT INTO node SELECT id, lat, lon, ..., null, ... FROM node_uniq`
(line 240): re-insert the aggregate rows with `house_number` cleared. -/
def reinsertUnique (uniq : List NodeRow) : List NodeRow :=
  uniq.map (fun u => { u with house_number := none })

/-- The whole `process_data` pass on the row set: build the scratch
aggregate, delete the originals it covers, re-insert the aggregates with
`house_number` null (the scratch table is then dropped). -/
def processData (rows : List NodeRow) : List NodeRow :=
  deleteDuplicates rows (uniqTable rows) ++ reinsertUnique (uniqTable rows)

/-! ### Store-level state for build_db / process_data (C8) -/

/-- The store as the dedup pass sees it: the `node` rows plus the
`node_uniq` scratch table when it exists. -/
structure DbState where
  nodeRows : List NodeRow
  node_uniq : Option (List NodeRow)
deriving Repr, DecidableEq

/-- The scratch-table guard of `build_db` (src/main.rs lines 45-47): drop
a leftover `node_uniq` if it exists.  (The migration steps, which only
ensure the `node` table, are outside the model.) -/
def buildDbCleanup (db : DbState) : DbState :=
  match db.node_uniq with
  | some _ => { db with node_uniq := none }
  | none => db

/-- `process_data` at the store level.  Its first statement,
`CREATE TABLE node_uniq AS ...` (line 231), has no IF NOT EXISTS guard and
fails when the scratch table already exists; otherwise the pass runs to
completion and drops the scratch table. -/
def processDataDb (db : DbState) : Except String DbState :=
  match db.node_uniq with
  | some _ => .error "table node_uniq already exists"
  | none => .ok { nodeRows := processData db.nodeRows, node_uniq := none }

/-! ### The BatchInsert pipeline (src/batch_insert.rs) -/

/-- The `BatchInsert` struct: each dispatcher's channel is modelled by the
list of batches ever sent into it; `handles` counts the live worker join
handles and `closed` records that the sending sides have been dropped. -/
structure BatchInsertState where
  batch : List NodeActiveModel
  batch_size : Nat
  queues : List (List (List NodeActiveModel))
  last_dispatcher : Nat
  handles : Nat
  closed : Bool
deriving Repr, DecidableEq

/-- `BatchInsert::new(db, batch_size, pool_size)` (lines 30-49). -/
def BatchInsert.new (batch_size pool_size : Nat) : BatchInsertState :=
  { batch := [], batch_size := batch_size,
    queues := List.replicate pool_size [],
    last_dispatcher := 0, handles := pool_size, closed := false }

/-- `BatchInsert::flush` (lines 70-81): advance the round-robin cursor,
send the pending batch (possibly empty) to the selected queue, reset the
buffer, return the count.  `none` models the panic on an empty pool
(`% 0` / out-of-bounds index). -/
def BatchInsert.flush (s : BatchInsertState) : Option (BatchInsertState × Nat) :=
  if s.queues.length = 0 then none
  else
    let count := s.batch.length
    let last := (s.last_dispatcher + 1) % s.queues.length
    some ({ s with
              batch := [],
              last_dispatcher := last,
              queues := s.queues.set last ((s.queues.getD last []) ++ [s.batch]) },
          count)

/-- `BatchInsert::insert` (lines 62-68): append, and flush once the buffer
reaches `batch_size`. -/
def BatchInsert.insert (s : BatchInsertState) (v : NodeActiveModel) :
    Option BatchInsertState :=
  let s' := { s with batch := s.batch ++ [v] }
  if s'.batch_size ≤ s'.batch.length then (BatchInsert.flush s').map (fun x => x.1)
  else some s'

/-- `Drop for BatchInsert` (lines 18-26): clear (close) the dispatchers'
sending sides and join every worker handle.  Note: `flush` is NOT called;
the pending `batch` field is simply discarded with the struct. -/
def BatchInsert.drop (s : BatchInsertState) : BatchInsertState :=
  { s with closed := true, handles := 0 }

/-- `flush` iterated (used to model M successive submissions); stops if
the pool is empty. -/
def flushN (s : BatchInsertState) : Nat → BatchInsertState
  | 0 => s
  | n + 1 =>
    match BatchInsert.flush s with
    | some (s', _) => flushN s' n
    | none => s

/-- All batches ever handed to some worker queue. -/
def sentBatches (s : BatchInsertState) : List (List NodeActiveModel) :=
  s.queues.flatten

/-- All records ever handed to some worker queue. -/
def sentRecords (s : BatchInsertState) : List NodeActiveModel :=
  (sentBatches s).flatten

/-- Number of batches worker `i` has received after `M` round-robin
submissions to a pool of size `P` (closed form used in the C7 proof). -/
def targetCount (P M i : Nat) : Nat :=
  M / P + (if 1 ≤ i ∧ i ≤ M % P then 1 else 0)

/-- Closed form of the queue contents after `M` empty-batch submissions. -/
def fairQueues (P M : Nat) : List (List (List NodeActiveModel)) :=
  (List.range P).map (fun i => List.replicate (targetCount P M i) [])

/-- Closed form of the whole pool state after `M` submissions. -/
def fairState (bs P M : Nat) : BatchInsertState :=
  { batch := [], batch_size := bs, queues := fairQueues P M,
    last_dispatcher := M % P, handles := P, closed := false }

/-! ### Concrete material for counterexamples and witnesses -/

/-- A ready record with id 1 (used by concrete counterexamples). -/
def exampleRecord : NodeActiveModel :=
  { NodeActiveModel.default with id := .set 1 }

/-- Spec §8 dedup-correctness scenario, rows 1-4. -/
def exRow1 : NodeRow := { id := 1, lat := 1, lon := 10, postcode := "AB1", street := some "X" }

def exRow2 : NodeRow := { id := 2, lat := 2, lon := 20, postcode := "AB1", street := some "X" }

def exRow3 : NodeRow := { id := 3, lat := 5, lon := 50, postcode := "CD2", street := some "Y" }

def exRow4 : NodeRow := { id := 4, lat := 7, lon := 70, postcode := "CD2", street := some "Z" }

/-- The averaged-coordinate row the pass produces for postcode "AB1". -/
def exRowAvg : NodeRow :=
  { exRow1 with lat := 3 / 2, lon := 15, house_number := none }

/-! ## Helper lemmas -/

theorem isPrefixOf_append_self (l m : List Char) : l.isPrefixOf (l ++ m) = true := by
  induction l with
  | nil => simp [List.isPrefixOf]
  | cons a t ih => simp [List.isPrefixOf, ih]

theorem string_mk_data (s : String) : String.mk s.data = s := rfl

/-- Stripping acts exactly by removing one leading "addr:". -/
theorem stripAddr_append (k : String) : stripAddr ("addr:" ++ k) = k := by
  have hdata : ("addr:" ++ k).data = "addr:".data ++ k.data := rfl
  have hdrop : ("addr:".data ++ k.data).drop 5 = k.data := by
    have h5 : ("addr:".data).length = 5 := rfl
    rw [← h5, List.drop_left]
  simp only [stripAddr, hdata, isPrefixOf_append_self, if_true, hdrop, string_mk_data]

theorem dispatchTag_buffer (k v : String) (st : ParseState) :
    (dispatchTag k v st).buffer = st.buffer := by
  unfold dispatchTag; split_ifs <;> rfl

theorem routeTag_buffer (k v : String) (st : ParseState) :
    (routeTag k v st).buffer = st.buffer := dispatchTag_buffer _ _ _

theorem dispatchTag_id (k v : String) (st : ParseState) :
    (dispatchTag k v st).current_node.id = st.current_node.id := by
  unfold dispatchTag; split_ifs <;> rfl

theorem routeTag_id (k v : String) (st : ParseState) :
    (routeTag k v st).current_node.id = st.current_node.id := dispatchTag_id _ _ _

theorem dispatchTag_province_ctx (k v : String) (st : ParseState) :
    (dispatchTag k v st).current_province =
      if k = "province" then some v else st.current_province := by
  unfold dispatchTag; split_ifs with h1 h2 h3 h4 h5 h6 h7 <;> simp_all

theorem dispatchTag_country_ctx (k v : String) (st : ParseState) :
    (dispatchTag k v st).current_country =
      if k = "country" then some v else st.current_country := by
  unfold dispatchTag; split_ifs with h1 h2 h3 h4 h5 h6 h7 <;> simp_all

theorem dispatchTag_node_province (k v : String) (st : ParseState) (h : k ≠ "province") :
    (dispatchTag k v st).current_node.province = st.current_node.province := by
  unfold dispatchTag; split_ifs <;> simp_all

theorem dispatchTag_node_country (k v : String) (st : ParseState) (h : k ≠ "country") :
    (dispatchTag k v st).current_node.country = st.current_node.country := by
  unfold dispatchTag; split_ifs <;> simp_all

theorem dispatchTag_street_isSet (k v : String) (st : ParseState)
    (h : st.current_node.street.is_set = true) :
    (dispatchTag k v st).current_node.street.is_set = true := by
  unfold dispatchTag; split_ifs <;> simp_all [ActiveValue.is_set]

/-- Membership in the flattening of a list of queues after appending `b`
to the queue at index `i`. -/
theorem mem_flatten_set {α : Type} :
    ∀ (l : List (List α)) (i : Nat) (x b : α), i < l.length →
      (x ∈ (l.set i ((l.getD i []) ++ [b])).flatten ↔ x ∈ l.flatten ∨ x = b)
  | [], i, x, b, h => by simp at h
  | q :: tl, 0, x, b, _ => by
    simp only [List.set_cons_zero, List.getD_cons_zero, List.flatten_cons,
      List.mem_append, List.mem_singleton]
    tauto
  | q :: tl, i + 1, x, b, h => by
    have ih := mem_flatten_set tl i x b (by simpa using h)
    simp only [List.set_cons_succ, List.getD_cons_succ, List.flatten_cons,
      List.mem_append] at ih ⊢
    tauto

/-! ## C5: tag routing and normalization -/

/-- C5: for tag events, the addr: prefix is stripped from the key before
dispatch; the postcode value is upper-cased with every space removed (so
no space characters remain); the house-number value is upper-cased; and an
unrecognized key leaves the state (current record, sticky context, buffer)
unchanged. -/
theorem c5_tag_normalization :
    (∀ k v st, routeTag ("addr:" ++ k) v st = dispatchTag k v st)
    ∧ (∀ v st,
        (dispatchTag "postcode" v st).current_node.postcode
          = ActiveValue.set (removeSpaces (toUpperStr v))
        ∧ (removeSpaces (toUpperStr v)).data
            = (v.data.map Char.toUpper).filter (fun c => c != ' ')
        ∧ ∀ c ∈ (removeSpaces (toUpperStr v)).data, c ≠ ' ')
    ∧ (∀ v st,
        (dispatchTag "housenumber" v st).current_node.house_number
          = ActiveValue.set (some (toUpperStr v)))
    ∧ (∀ k v st,
        stripAddr k ∉ ["city", "country", "housenumber", "postcode",
                        "street", "province", "source"] →
        routeTag k v st = st) := by
  refine ⟨?_, ?_, ?_, ?_⟩
  · intro k v st
    unfold routeTag
    rw [stripAddr_append]
  · intro v st
    refine ⟨rfl, rfl, ?_⟩
    intro c hc
    simp only [removeSpaces, List.mem_filter] at hc
    simpa using hc.2
  · intro v st
    rfl
  · intro k v st hk
    simp only [List.mem_cons, List.not_mem_nil, or_false, not_or] at hk
    obtain ⟨h1, h2, h3, h4, h5, h6, h7⟩ := hk
    simp [routeTag, dispatchTag, h1, h2, h3, h4, h5, h6, h7]

/-- C5 witness: concrete instances, discharging the unrecognized-key
hypothesis at key "amenity". -/
theorem c5_witness :
    routeTag ("addr:" ++ "postcode") "1234 ab" initState
      = dispatchTag "postcode" "1234 ab" initState
    ∧ (dispatchTag "postcode" "1234 ab" initState).current_node.postcode
      = ActiveValue.set (removeSpaces (toUpperStr "1234 ab"))
    ∧ routeTag "amenity" "bench" initState = initState := by
  refine ⟨c5_tag_normalization.1 "postcode" "1234 ab" initState,
    (c5_tag_normalization.2.1 "1234 ab" initState).1,
    c5_tag_normalization.2.2.2 "amenity" "bench" initState (by decide)⟩

/-! ## C10: flush on an empty buffer -/

/-- C10: flushing with an empty internal buffer still advances the
round-robin cursor by one modulo the pool size, still sends an (empty)
batch to the selected worker queue, and returns 0. -/
theorem c10_flush_empty :
    ∀ s : BatchInsertState, s.batch = [] → 0 < s.queues.length →
      BatchInsert.flush s =
        some ({ s with
                  batch := [],
                  last_dispatcher := (s.last_dispatcher + 1) % s.queues.length,
                  queues := s.queues.set ((s.last_dispatcher + 1) % s.queues.length)
                    ((s.queues.getD ((s.last_dispatcher + 1) % s.queues.length) [])
                      ++ [[]]) },
              0) := by
  intro s hb hq
  unfold BatchInsert.flush
  rw [if_neg (by omega)]
  simp [hb]

/-- C10 witness: a fresh single-worker pool. -/
theorem c10_witness :
    BatchInsert.flush (BatchInsert.new 2 1) =
      some ({ batch := [], batch_size := 2, queues := [[[]]],
              last_dispatcher := 0, handles := 1, closed := false }, 0) := by
  rw [c10_flush_empty (BatchInsert.new 2 1) rfl (by decide)]
  rfl

/-! ## C1: shutdown does not flush -/

/-- C1 counterexample: one record inserted into a fresh pipeline
(batch_size 2, pool 1) sits in the in-memory batch; dropping the pipeline
joins the workers with the record never handed to any worker queue. -/
theorem c1_counterexample :
    (BatchInsert.insert (BatchInsert.new 2 1) exampleRecord).map
        (fun s => (s.batch, sentRecords (BatchInsert.drop s), (BatchInsert.drop s).handles))
      = some ([exampleRecord], [], 0) := by decide

/-- C1 amended: Drop closes the dispatchers and joins every worker but
never flushes — it hands nothing new to any worker queue and leaves the
pending batch behind; a buffered record reaches a worker queue only
through a flush (explicit or triggered inside insert), which hands the
entire pending batch to one queue. -/
theorem c1_amended_drop_no_flush :
    (∀ s : BatchInsertState,
        sentBatches (BatchInsert.drop s) = sentBatches s
        ∧ (BatchInsert.drop s).batch = s.batch
        ∧ (BatchInsert.drop s).handles = 0
        ∧ (BatchInsert.drop s).closed = true)
    ∧ (∀ (s s' : BatchInsertState) (c : Nat),
        BatchInsert.flush s = some (s', c) →
        c = s.batch.length ∧ s'.batch = []
        ∧ s.batch ∈ sentBatches s'
        ∧ ∀ b, b ∈ sentBatches s' → b ∈ sentBatches s ∨ b = s.batch) := by
  constructor
  · intro s
    exact ⟨rfl, rfl, rfl, rfl⟩
  · intro s s' c h
    unfold BatchInsert.flush at h
    by_cases hlen : s.queues.length = 0
    · rw [if_pos hlen] at h; cases h
    · rw [if_neg hlen] at h
      simp only [Option.some.injEq, Prod.mk.injEq] at h
      obtain ⟨hs', hc⟩ := h
      have hlt : (s.last_dispatcher + 1) % s.queues.length < s.queues.length :=
        Nat.mod_lt _ (by omega)
      subst hs'
      refine ⟨hc.symm, rfl, ?_, ?_⟩
      · exact (mem_flatten_set s.queues _ _ s.batch hlt).2 (Or.inr rfl)
      · intro b hb
        exact (mem_flatten_set s.queues _ b s.batch hlt).1 hb

/-- C1 amended witness. -/
theorem c1_amended_witness :
    sentBatches (BatchInsert.drop (BatchInsert.new 2 1)) = sentBatches (BatchInsert.new 2 1)
    ∧ ([] : List NodeActiveModel) ∈ sentBatches
        { batch := [], batch_size := 2, queues := [[[]]],
          last_dispatcher := 0, handles := 1, closed := false } := by
  refine ⟨(c1_amended_drop_no_flush.1 (BatchInsert.new 2 1)).1, ?_⟩
  exact (c1_amended_drop_no_flush.2 (BatchInsert.new 2 1)
    { batch := [], batch_size := 2, queues := [[[]]],
      last_dispatcher := 0, handles := 1, closed := false }
    0 (by decide)).2.2.1

/-! ## C4: parse-failure handling in node attributes -/

/-- C4 counterexample: a malformed timestamp attribute is not downgraded
to absent — the field is set to the default timestamp instead. -/
theorem c4_counterexample :
    (parseNodeAttrs [("timestamp", "notadate")] {}).toOption.map (fun m => m.timestamp)
        = some (some 0)
    ∧ (parseNodeAttrs [("timestamp", "notadate")] {}).toOption.map (fun m => m.timestamp)
        ≠ some none := by decide

/-- C4 amended: a parse failure on the identifier or a coordinate is fatal
to the run (the attribute loop aborts with an error), while a parse
failure on the timestamp is never fatal and sets the field to the default
timestamp value rather than absent. -/
theorem c4_amended_parse_failures :
    (∀ v rest acc, parseU64 v = none →
        parseNodeAttrs (("id", v) :: rest) acc = Except.error "id: parse failed")
    ∧ (∀ v rest acc, parseF64 v = none →
        parseNodeAttrs (("lat", v) :: rest) acc = Except.error "lat: parse failed")
    ∧ (∀ v rest acc, parseF64 v = none →
        parseNodeAttrs (("lon", v) :: rest) acc = Except.error "lon: parse failed")
    ∧ (∀ v rest acc,
        parseNodeAttrs (("timestamp", v) :: rest) acc
          = parseNodeAttrs rest
              { acc with timestamp := some ((parseDateTime v).getD defaultTimestamp) })
    ∧ (∀ v rest acc, parseDateTime v = none →
        parseNodeAttrs (("timestamp", v) :: rest) acc
          = parseNodeAttrs rest { acc with timestamp := some defaultTimestamp }) := by
  refine ⟨?_, ?_, ?_, ?_, ?_⟩
  · intro v rest acc h; simp [parseNodeAttrs, h]
  · intro v rest acc h; simp [parseNodeAttrs, h]
  · intro v rest acc h; simp [parseNodeAttrs, h]
  · intro v rest acc; rfl
  · intro v rest acc h; simp [parseNodeAttrs, h, defaultTimestamp]

/-- C4 amended witness: the unparsable value "x". -/
theorem c4_witness :
    parseNodeAttrs [("id", "x")] {} = Except.error "id: parse failed"
    ∧ parseNodeAttrs [("timestamp", "x")] {}
        = parseNodeAttrs [] { ({} : ParsedAttributeMap) with timestamp := some defaultTimestamp } := by
  exact ⟨c4_amended_parse_failures.1 "x" [] {} (by decide),
    c4_amended_parse_failures.2.2.2.2 "x" [] {} (by decide)⟩

/-! ## C8: retry safety of the deduplication pass -/

/-- C8 counterexample: with the scratch table left over from a partial
completion, re-running the pass alone fails at the unguarded
CREATE TABLE. -/
theorem c8_counterexample :
    processDataDb { nodeRows := [], node_uniq := some [] }
      = Except.error "table node_uniq already exists" := rfl

/-- C8 amended: the existence-check guard lives in build_db, not in the
pass itself: build_db drops a leftover scratch table (preserving the node
rows), after which the pass runs to completion; running the pass alone
while the scratch table still exists fails at CREATE TABLE. -/
theorem c8_amended_retry_guard :
    ∀ db : DbState,
      (buildDbCleanup db).node_uniq = none
      ∧ (buildDbCleanup db).nodeRows = db.nodeRows
      ∧ processDataDb (buildDbCleanup db)
          = Except.ok { nodeRows := processData db.nodeRows, node_uniq := none }
      ∧ (db.node_uniq ≠ none →
          processDataDb db = Except.error "table node_uniq already exists") := by
  intro db
  cases h : db.node_uniq <;>
    simp [buildDbCleanup, processDataDb, h]

/-- C8 amended witness: a store with a leftover scratch table. -/
theorem c8_witness :
    (buildDbCleanup { nodeRows := [], node_uniq := some ([] : List NodeRow) }).node_uniq = none
    ∧ processDataDb { nodeRows := [], node_uniq := some ([] : List NodeRow) }
        = Except.error "table node_uniq already exists" :=
  ⟨(c8_amended_retry_guard _).1, (c8_amended_retry_guard _).2.2.2 (by decide)⟩

/-! ## C2: readiness invariant -/

/-- The buffer invariant of the event loop: what has been pushed is the
node_ready filter of what has been finalized. -/
theorem finalize_fold (now : Nat) :
    ∀ (evs : List ParsedElementEvent) (st : ParseState) (closed : List NodeActiveModel),
      st.buffer = closed.filter node_ready →
      finalizeState (evs.foldl (stepEvent now) st)
        = (closedRecordsAux now st closed evs).filter node_ready := by
  intro evs
  induction evs with
  | nil =>
    intro st closed h
    simp only [List.foldl_nil, closedRecordsAux, List.filter_append, ← h, finalizeState]
    by_cases hr : node_ready st.current_node <;> simp [hr]
  | cons e rest ih =>
    intro st closed h
    cases e with
    | node m =>
      simp only [List.foldl_cons, closedRecordsAux]
      apply ih
      simp only [stepEvent, List.filter_append, ← h]
      by_cases hr : node_ready st.current_node <;> simp [hr]
    | tag k v =>
      simp only [List.foldl_cons, closedRecordsAux]
      apply ih
      rw [show stepEvent now st (ParsedElementEvent.tag k v) = routeTag k v st from rfl,
        routeTag_buffer, h]

/-- C2: over any event sequence, a finalized record (closed by the next
node-start event or by end-of-stream) is pushed to the write buffer if and
only if its identifier, postcode and street fields are all populated
(`is_set`); records missing any of them are silently dropped. -/
theorem c2_readiness_filter :
    ∀ (now : Nat) (evs : List ParsedElementEvent),
      finalBuffer now evs
        = (closedRecords now evs).filter
            (fun r => r.id.is_set && r.postcode.is_set && r.street.is_set) := by
  intro now evs
  exact finalize_fold now evs initState [] rfl

/-! ## C6: contextual stickiness of province and country -/

theorem ctx_province_fold (now : Nat) :
    ∀ (evs : List ParsedElementEvent) (st : ParseState),
      (evs.foldl (stepEvent now) st).current_province
        = evs.foldl updProvince st.current_province := by
  intro evs
  induction evs with
  | nil => intro st; rfl
  | cons e rest ih =>
    intro st
    cases e with
    | node m => simp only [List.foldl_cons, ih]; rfl
    | tag k v =>
      simp only [List.foldl_cons, ih]
      have : (stepEvent now st (ParsedElementEvent.tag k v)).current_province
          = updProvince st.current_province (ParsedElementEvent.tag k v) := by
        show (dispatchTag (stripAddr k) v st).current_province = _
        rw [dispatchTag_province_ctx]
        rfl
      rw [this]

theorem ctx_country_fold (now : Nat) :
    ∀ (evs : List ParsedElementEvent) (st : ParseState),
      (evs.foldl (stepEvent now) st).current_country
        = evs.foldl updCountry st.current_country := by
  intro evs
  induction evs with
  | nil => intro st; rfl
  | cons e rest ih =>
    intro st
    cases e with
    | node m => simp only [List.foldl_cons, ih]; rfl
    | tag k v =>
      simp only [List.foldl_cons, ih]
      have : (stepEvent now st (ParsedElementEvent.tag k v)).current_country
          = updCountry st.current_country (ParsedElementEvent.tag k v) := by
        show (dispatchTag (stripAddr k) v st).current_country = _
        rw [dispatchTag_country_ctx]
        rfl
      rw [this]

theorem pres_node_province (now : Nat) :
    ∀ (evs : List ParsedElementEvent) (st : ParseState),
      (∀ e ∈ evs, isNodeEvent e = false) →
      (∀ e ∈ evs, setsProvince e = false) →
      (evs.foldl (stepEvent now) st).current_node.province
        = st.current_node.province := by
  intro evs
  induction evs with
  | nil => intro st _ _; rfl
  | cons e rest ih =>
    intro st hn hp
    cases e with
    | node m =>
      exact absurd (hn (ParsedElementEvent.node m) (List.mem_cons_self _ _))
        (by simp [isNodeEvent])
    | tag k v =>
      have hk : stripAddr k ≠ "province" := by
        have := hp (ParsedElementEvent.tag k v) (List.mem_cons_self _ _)
        simpa [setsProvince] using this
      simp only [List.foldl_cons]
      rw [ih _ (fun e he => hn e (List.mem_cons_of_mem _ he))
            (fun e he => hp e (List.mem_cons_of_mem _ he))]
      show (dispatchTag (stripAddr k) v st).current_node.province = _
      exact dispatchTag_node_province _ _ _ hk

theorem pres_node_country (now : Nat) :
    ∀ (evs : List ParsedElementEvent) (st : ParseState),
      (∀ e ∈ evs, isNodeEvent e = false) →
      (∀ e ∈ evs, setsCountry e = false) →
      (evs.foldl (stepEvent now) st).current_node.country
        = st.current_node.country := by
  intro evs
  induction evs with
  | nil => intro st _ _; rfl
  | cons e rest ih =>
    intro st hn hc
    cases e with
    | node m =>
      exact absurd (hn (ParsedElementEvent.node m) (List.mem_cons_self _ _))
        (by simp [isNodeEvent])
    | tag k v =>
      have hk : stripAddr k ≠ "country" := by
        have := hc (ParsedElementEvent.tag k v) (List.mem_cons_self _ _)
        simpa [setsCountry] using this
      simp only [List.foldl_cons]
      rw [ih _ (fun e he => hn e (List.mem_cons_of_mem _ he))
            (fun e he => hc e (List.mem_cons_of_mem _ he))]
      show (dispatchTag (stripAddr k) v st).current_node.country = _
      exact dispatchTag_node_country _ _ _ hk

/-- C6: a record whose own span (from its node-start event to its
finalization) contains no province-setting (resp. country-setting) tag
event carries the value set by the nearest preceding tag event that set
one, and the explicitly-set absent value (none) when no such predecessor
exists. -/
theorem c6_contextual_stickiness :
    ∀ (now : Nat) (evs1 : List ParsedElementEvent) (m : ParsedAttributeMap)
      (evs2 : List ParsedElementEvent),
      (∀ e ∈ evs2, isNodeEvent e = false) →
      ((∀ e ∈ evs2, setsProvince e = false) →
        (processEvents now (evs1 ++ ParsedElementEvent.node m :: evs2)).current_node.province
          = ActiveValue.set (lastProvinceVal evs1))
      ∧ ((∀ e ∈ evs2, setsCountry e = false) →
        (processEvents now (evs1 ++ ParsedElementEvent.node m :: evs2)).current_node.country
          = ActiveValue.set (lastCountryVal evs1)) := by
  intro now evs1 m evs2 hn
  have hsplit : processEvents now (evs1 ++ ParsedElementEvent.node m :: evs2)
      = evs2.foldl (stepEvent now)
          (stepEvent now (evs1.foldl (stepEvent now) initState)
            (ParsedElementEvent.node m)) := by
    simp [processEvents, List.foldl_append]
  constructor
  · intro hp
    rw [hsplit, pres_node_province now evs2 _ hn hp]
    show ActiveValue.set ((evs1.foldl (stepEvent now) initState).current_province) = _
    rw [ctx_province_fold now evs1 initState]
    rfl
  · intro hc
    rw [hsplit, pres_node_country now evs2 _ hn hc]
    show ActiveValue.set ((evs1.foldl (stepEvent now) initState).current_country) = _
    rw [ctx_country_fold now evs1 initState]
    rfl

/-- C6 witness: a record with no province/country tag of its own inherits
"ZH"/"NL" from earlier tag events. -/
theorem c6_witness :
    (processEvents 0 ([ParsedElementEvent.tag "addr:province" "ZH",
          ParsedElementEvent.tag "addr:country" "NL"]
        ++ ParsedElementEvent.node {} :: [ParsedElementEvent.tag "addr:city" "Delft"])).current_node.province
      = ActiveValue.set (lastProvinceVal [ParsedElementEvent.tag "addr:province" "ZH",
          ParsedElementEvent.tag "addr:country" "NL"])
    ∧ (processEvents 0 ([ParsedElementEvent.tag "addr:province" "ZH",
          ParsedElementEvent.tag "addr:country" "NL"]
        ++ ParsedElementEvent.node {} :: [ParsedElementEvent.tag "addr:city" "Delft"])).current_node.country
      = ActiveValue.set (lastCountryVal [ParsedElementEvent.tag "addr:province" "ZH",
          ParsedElementEvent.tag "addr:country" "NL"]) := by
  have h := c6_contextual_stickiness 0
    [ParsedElementEvent.tag "addr:province" "ZH", ParsedElementEvent.tag "addr:country" "NL"]
    {} [ParsedElementEvent.tag "addr:city" "Delft"] (by decide)
  exact ⟨h.1 (by decide), h.2 (by decide)⟩

/-! ## C9: the street conjunct of readiness -/

theorem street_set_after_node (now : Nat) :
    ∀ (evs : List ParsedElementEvent) (st : ParseState),
      (st.current_node.street.is_set = true ∨ evs.any isNodeEvent = true) →
      (evs.foldl (stepEvent now) st).current_node.street.is_set = true := by
  intro evs
  induction evs with
  | nil =>
    intro st h
    simpa using h
  | cons e rest ih =>
    intro st h
    cases e with
    | node m =>
      simp only [List.foldl_cons]
      exact ih _ (Or.inl rfl)
    | tag k v =>
      simp only [List.foldl_cons]
      apply ih
      rcases h with h | h
      · exact Or.inl (dispatchTag_street_isSet _ _ _ h)
      · exact Or.inr (by simpa [isNodeEvent] using h)

theorem buffer_id_pres (now : Nat) :
    ∀ (evs : List ParsedElementEvent) (st : ParseState),
      (∀ e ∈ evs, isNodeEvent e = false) →
      (evs.foldl (stepEvent now) st).buffer = st.buffer
      ∧ (evs.foldl (stepEvent now) st).current_node.id = st.current_node.id := by
  intro evs
  induction evs with
  | nil => intro st _; exact ⟨rfl, rfl⟩
  | cons e rest ih =>
    intro st hn
    cases e with
    | node m =>
      exact absurd (hn (ParsedElementEvent.node m) (List.mem_cons_self _ _))
        (by simp [isNodeEvent])
    | tag k v =>
      simp only [List.foldl_cons]
      have := ih (routeTag k v st) (fun e he => hn e (List.mem_cons_of_mem _ he))
      exact ⟨this.1.trans (routeTag_buffer _ _ _),
        this.2.trans (routeTag_id _ _ _)⟩

/-- C9: every record constructed from a node-start event has its street
field explicitly set to None, so for such records (tags never unset it)
readiness reduces to the identifier and postcode being set; only the
initial default record can fail the street conjunct, tag events never set
the identifier, and a stream prefix with no node event never emits a
record. -/
theorem c9_street_always_set :
    (∀ (now : Nat) (prov ctry : Option String) (m : ParsedAttributeMap),
        (mkCurrentNode now prov ctry m).street = ActiveValue.set none)
    ∧ (∀ r : NodeActiveModel, r.street.is_set = true →
        node_ready r = (r.id.is_set && r.postcode.is_set))
    ∧ (∀ (now : Nat) (evs : List ParsedElementEvent), evs.any isNodeEvent = true →
        (processEvents now evs).current_node.street.is_set = true)
    ∧ (∀ k v st, (routeTag k v st).current_node.id = st.current_node.id)
    ∧ node_ready NodeActiveModel.default = false
    ∧ (∀ (now : Nat) (evs : List ParsedElementEvent),
        (∀ e ∈ evs, isNodeEvent e = false) → finalBuffer now evs = []) := by
  refine ⟨fun _ _ _ _ => rfl, ?_, ?_, routeTag_id, rfl, ?_⟩
  · intro r h
    simp [node_ready, h]
  · intro now evs h
    exact street_set_after_node now evs initState (Or.inr h)
  · intro now evs h
    have hb := buffer_id_pres now evs initState h
    have hid : (processEvents now evs).current_node.id = ActiveValue.notSet := by
      rw [show processEvents now evs = evs.foldl (stepEvent now) initState from rfl, hb.2]
      rfl
    have hready : node_ready (processEvents now evs).current_node = false := by
      simp [node_ready, hid, ActiveValue.is_set]
    simp only [finalBuffer, finalizeState, hready, Bool.false_eq_true, if_false]
    rw [show processEvents now evs = evs.foldl (stepEvent now) initState from rfl, hb.1]
    rfl

/-- C9 witness. -/
theorem c9_witness :
    node_ready { NodeActiveModel.default with street := ActiveValue.set none }
        = ({ NodeActiveModel.default with street := ActiveValue.set none }.id.is_set
            && { NodeActiveModel.default with street := ActiveValue.set none }.postcode.is_set)
    ∧ (processEvents 0 [ParsedElementEvent.node {}]).current_node.street.is_set = true
    ∧ finalBuffer 0 [ParsedElementEvent.tag "addr:postcode" "1234AB"] = [] := by
  exact ⟨c9_street_always_set.2.1 _ rfl,
    c9_street_always_set.2.2.1 0 [ParsedElementEvent.node {}] (by decide),
    c9_street_always_set.2.2.2.2.2 0 [ParsedElementEvent.tag "addr:postcode" "1234AB"] (by decide)⟩

/-! ## C7: round-robin fairness -/

theorem targetCount_succ (P M j : Nat) (hP : 0 < P) (hj : j < P) :
    targetCount P (M + 1) j = targetCount P M j + (if (M + 1) % P = j then 1 else 0) := by
  have hr : M % P < P := Nat.mod_lt _ hP
  have hdm : P * (M / P) + M % P = M := Nat.div_add_mod M P
  by_cases hcase : M % P + 1 < P
  · have hM1 : M + 1 = (M % P + 1) + P * (M / P) := by omega
    have h1 : (M + 1) % P = M % P + 1 := by
      rw [hM1, Nat.add_mul_mod_self_left, Nat.mod_eq_of_lt hcase]
    have h2 : (M + 1) / P = M / P := by
      rw [hM1, Nat.add_mul_div_left _ _ hP, Nat.div_eq_of_lt hcase, Nat.zero_add]
    simp only [targetCount, h1, h2]
    split_ifs <;> omega
  · have hPeq : M % P + 1 = P := by omega
    have hM1 : M + 1 = P * (M / P + 1) := by rw [Nat.mul_succ]; omega
    have h1 : (M + 1) % P = 0 := by rw [hM1]; exact Nat.mul_mod_right _ _
    have h2 : (M + 1) / P = M / P + 1 := by
      rw [hM1]; exact Nat.mul_div_cancel_left _ hP
    simp only [targetCount, h1, h2]
    split_ifs <;> omega

/-- Iterating a flush one more time applies one flush to the result. -/
theorem flushN_last :
    ∀ (n : Nat) (s : BatchInsertState),
      flushN s (n + 1) =
        (match BatchInsert.flush (flushN s n) with
          | some (s', _) => s'
          | none => flushN s n) := by
  intro n
  induction n with
  | zero =>
    intro s
    cases h : BatchInsert.flush s with
    | none => simp [flushN, h]
    | some pr =>
      obtain ⟨s', c⟩ := pr
      simp [flushN, h]
  | succ n ih =>
    intro s
    cases h : BatchInsert.flush s with
    | none => simp [flushN, h]
    | some pr =>
      obtain ⟨s', c⟩ := pr
      have hl : flushN s (n + 1 + 1) = flushN s' (n + 1) := by simp [flushN, h]
      have hr2 : flushN s (n + 1) = flushN s' n := by simp [flushN, h]
      rw [hl, hr2, ih s']

/-- Successful flush, written out (pool nonempty). -/
theorem flush_eq (s : BatchInsertState) (h : s.queues.length ≠ 0) :
    BatchInsert.flush s = some ({ s with
        batch := [],
        last_dispatcher := (s.last_dispatcher + 1) % s.queues.length,
        queues := s.queues.set ((s.last_dispatcher + 1) % s.queues.length)
          ((s.queues.getD ((s.last_dispatcher + 1) % s.queues.length) []) ++ [s.batch]) },
      s.batch.length) := by
  unfold BatchInsert.flush
  rw [if_neg h]

theorem fairQueues_length (P M : Nat) : (fairQueues P M).length = P := by
  simp [fairQueues]

theorem fairQueues_getElem (P M j : Nat) (_hj : j < P)
    (hb : j < (fairQueues P M).length) :
    (fairQueues P M)[j] = List.replicate (targetCount P M j) [] := by
  simp [fairQueues]

theorem fairQueues_getD (P M j : Nat) (hj : j < P) :
    (fairQueues P M).getD j [] = List.replicate (targetCount P M j) [] := by
  have hb : j < (fairQueues P M).length := by rw [fairQueues_length]; exact hj
  rw [List.getD_eq_getElem _ _ hb]
  exact fairQueues_getElem P M j hj hb

/-- One flush advances the closed-form pool state by one submission. -/
theorem flush_fairState (bs P M : Nat) (hP : 0 < P) :
    BatchInsert.flush (fairState bs P M) = some (fairState bs P (M + 1), 0) := by
  have hlen : (fairQueues P M).length = P := fairQueues_length P M
  have hmod : (M % P + 1) % P = (M + 1) % P := (Nat.mod_modEq M P).add_right 1
  have hidx : (M + 1) % P < P := Nat.mod_lt _ hP
  have hqueues : (fairQueues P M).set ((M + 1) % P)
      (((fairQueues P M).getD ((M + 1) % P) []) ++ [[]])
      = fairQueues P (M + 1) := by
    apply List.ext_getElem
    · rw [List.length_set, fairQueues_length, fairQueues_length]
    · intro j h1 h2
      have hjP : j < P := by
        simpa [List.length_set, hlen] using h1
      rw [List.getElem_set]
      by_cases hj : (M + 1) % P = j
      · rw [if_pos hj, fairQueues_getD P M _ hidx,
          fairQueues_getElem P (M + 1) j hjP h2]
        have ht : targetCount P (M + 1) j = targetCount P M j + 1 := by
          rw [targetCount_succ P M j hP hjP, if_pos hj]
        rw [ht, hj]
        exact (List.replicate_succ' _ _).symm
      · rw [if_neg hj, fairQueues_getElem P (M + 1) j hjP h2,
          fairQueues_getElem P M j hjP (by rw [hlen]; exact hjP)]
        have ht : targetCount P (M + 1) j = targetCount P M j := by
          rw [targetCount_succ P M j hP hjP, if_neg hj]
          omega
        rw [ht]
  have hne : (fairState bs P M).queues.length ≠ 0 := by
    show (fairQueues P M).length ≠ 0
    rw [hlen]; omega
  rw [flush_eq _ hne]
  show some ({ fairState bs P M with
      batch := [],
      last_dispatcher := (M % P + 1) % (fairQueues P M).length,
      queues := (fairQueues P M).set ((M % P + 1) % (fairQueues P M).length)
        (((fairQueues P M).getD ((M % P + 1) % (fairQueues P M).length) []) ++ [[]]) },
    (0 : Nat)) = some (fairState bs P (M + 1), 0)
  rw [hlen, hmod, hqueues]
  rfl

/-- Closed form of the pool state after `M` submissions from a fresh pool. -/
theorem flushN_fairState (bs P : Nat) (hP : 0 < P) :
    ∀ M : Nat, flushN (BatchInsert.new bs P) M = fairState bs P M := by
  intro M
  induction M with
  | zero =>
    show BatchInsert.new bs P = fairState bs P 0
    have hzero : ∀ i ∈ List.range P,
        List.replicate (targetCount P 0 i) ([] : List NodeActiveModel) = [] := by
      intro i _
      have ht : targetCount P 0 i = 0 := by
        unfold targetCount
        rw [Nat.zero_div, Nat.zero_mod, if_neg (by omega)]
      rw [ht]
      rfl
    unfold BatchInsert.new fairState fairQueues
    rw [List.map_congr_left hzero, List.map_const', List.length_range, Nat.zero_mod]
  | succ M ih =>
    rw [flushN_last, ih, flush_fairState bs P M hP]

/-- C7: every flush advances the dispatcher cursor by exactly one modulo
the pool size before sending, and after M submissions to a pool of size P
(M at least P) every worker has received either M/P or M/P + 1 batches. -/
theorem c7_round_robin_fairness :
    (∀ (s s' : BatchInsertState) (c : Nat),
        BatchInsert.flush s = some (s', c) →
        s'.last_dispatcher = (s.last_dispatcher + 1) % s.queues.length)
    ∧ (∀ (bs P M i : Nat), 0 < P → P ≤ M → i < P →
        (((flushN (BatchInsert.new bs P) M).queues.getD i []).length = M / P
        ∨ ((flushN (BatchInsert.new bs P) M).queues.getD i []).length = M / P + 1)) := by
  constructor
  · intro s s' c h
    unfold BatchInsert.flush at h
    by_cases hlen : s.queues.length = 0
    · rw [if_pos hlen] at h; cases h
    · rw [if_neg hlen] at h
      simp only [Option.some.injEq, Prod.mk.injEq] at h
      obtain ⟨hs', _⟩ := h
      subst hs'
      rfl
  · intro bs P M i hP hPM hiP
    rw [flushN_fairState bs P hP M]
    have hgetd : (fairState bs P M).queues.getD i []
        = List.replicate (targetCount P M i) [] := fairQueues_getD P M i hiP
    rw [hgetd, List.length_replicate]
    unfold targetCount
    split_ifs
    · exact Or.inr rfl
    · exact Or.inl rfl

/-- C7 witness: five submissions to a pool of two workers; also the cursor
advance at a concrete flush. -/
theorem c7_witness :
    (((flushN (BatchInsert.new 1 2) 5).queues.getD 1 []).length = 5 / 2
      ∨ ((flushN (BatchInsert.new 1 2) 5).queues.getD 1 []).length = 5 / 2 + 1)
    ∧ ({ batch := [], batch_size := 1, queues := [[], [[]]],
          last_dispatcher := 1, handles := 2, closed := false } : BatchInsertState).last_dispatcher
        = ((BatchInsert.new 1 2).last_dispatcher + 1) % (BatchInsert.new 1 2).queues.length := by
  refine ⟨c7_round_robin_fairness.2 1 2 5 1 (by decide) (by decide) (by decide),
    c7_round_robin_fairness.1 (BatchInsert.new 1 2) _ 0 (by decide)⟩

/-! ## C3: the deduplication pass -/

theorem aggRow_postcode (rows : List NodeRow) (q : String)
    (h : rowsWithPostcode rows q ≠ []) :
    (aggRow (rowsWithPostcode rows q)).postcode = q := by
  show (rowsWithPostcode rows q).headI.postcode = q
  have hmem : (rowsWithPostcode rows q).headI ∈ rowsWithPostcode rows q := by
    cases hg : rowsWithPostcode rows q with
    | nil => exact absurd hg h
    | cons a t => exact List.mem_cons_self a t
  have h2 := List.mem_filter.1 hmem
  exact of_decide_eq_true h2.2

theorem group_ne_nil_iff (rows : List NodeRow) (p : String) :
    rowsWithPostcode rows p ≠ [] ↔ p ∈ rows.map (fun r => r.postcode) := by
  unfold rowsWithPostcode
  rw [Ne, List.filter_eq_nil_iff]
  push_neg
  simp only [decide_eq_true_eq, List.mem_map]

theorem distinct_one_ne_nil (rows : List NodeRow) (p : String)
    (h : distinctStreetCount (rowsWithPostcode rows p) = 1) :
    rowsWithPostcode rows p ≠ [] := by
  intro hnil
  rw [hnil] at h
  simp [distinctStreetCount] at h

theorem uniq_filter_aux (rows : List NodeRow) (p : String) :
    ∀ l : List String, l.Nodup → (∀ q ∈ l, rowsWithPostcode rows q ≠ []) →
      (l.filterMap (fun q =>
          if distinctStreetCount (rowsWithPostcode rows q) = 1 then
            some (aggRow (rowsWithPostcode rows q))
          else none)).filter (fun r => decide (r.postcode = p))
        = if p ∈ l ∧ distinctStreetCount (rowsWithPostcode rows p) = 1 then
            [aggRow (rowsWithPostcode rows p)] else [] := by
  intro l
  induction l with
  | nil =>
    intro _ _
    simp
  | cons q l' ih =>
    intro hnd hne
    have hq_ne : rowsWithPostcode rows q ≠ [] := hne q (List.mem_cons_self _ _)
    have hq_notmem : q ∉ l' := (List.nodup_cons.1 hnd).1
    have ih' := ih (List.nodup_cons.1 hnd).2 (fun r hr => hne r (List.mem_cons_of_mem _ hr))
    by_cases hq : distinctStreetCount (rowsWithPostcode rows q) = 1
    · have hfa : (if distinctStreetCount (rowsWithPostcode rows q) = 1 then
          some (aggRow (rowsWithPostcode rows q)) else none)
          = some (aggRow (rowsWithPostcode rows q)) := if_pos hq
      simp only [List.filterMap_cons, hfa]
      rw [List.filter_cons]
      have hpc : (aggRow (rowsWithPostcode rows q)).postcode = q :=
        aggRow_postcode rows q hq_ne
      by_cases hpq : p = q
      · subst hpq
        rw [if_pos (by simp [hpc]), ih', if_neg (by
            rintro ⟨hmem, _⟩
            exact hq_notmem hmem),
          if_pos ⟨List.mem_cons_self _ _, hq⟩]
      · rw [if_neg (by
            simp only [hpc, decide_eq_true_eq]
            exact fun h => hpq h.symm), ih']
        have hiff : (p ∈ q :: l') ↔ (p ∈ l') := by
          simp [List.mem_cons, hpq]
        rw [if_congr (and_congr_left fun _ => hiff) rfl rfl]
    · have hfa : (if distinctStreetCount (rowsWithPostcode rows q) = 1 then
          some (aggRow (rowsWithPostcode rows q)) else none) = none := if_neg hq
      simp only [List.filterMap_cons, hfa]
      rw [ih']
      by_cases hpq : p = q
      · subst hpq
        rw [if_neg (fun hc => hq_notmem hc.1), if_neg (fun hc => hq hc.2)]
      · have hiff : (p ∈ q :: l') ↔ (p ∈ l') := by
          simp [List.mem_cons, hpq]
        rw [if_congr (and_congr_left fun _ => hiff) rfl rfl]

theorem uniq_filter (rows : List NodeRow) (p : String) :
    (uniqTable rows).filter (fun r => decide (r.postcode = p))
      = if distinctStreetCount (rowsWithPostcode rows p) = 1 then
          [aggRow (rowsWithPostcode rows p)] else [] := by
  unfold uniqTable
  rw [uniq_filter_aux rows p ((rows.map (fun r => r.postcode)).dedup)
    (List.nodup_dedup _)
    (fun q hq => (group_ne_nil_iff rows q).2 (List.mem_dedup.1 hq))]
  by_cases hd : distinctStreetCount (rowsWithPostcode rows p) = 1
  · rw [if_pos ⟨List.mem_dedup.2 ((group_ne_nil_iff rows p).1
      (distinct_one_ne_nil rows p hd)), hd⟩, if_pos hd]
  · rw [if_neg (fun hc => hd hc.2), if_neg hd]

theorem mem_uniq_postcodes (rows : List NodeRow) (p : String) :
    p ∈ (uniqTable rows).map (fun u => u.postcode)
      ↔ distinctStreetCount (rowsWithPostcode rows p) = 1 := by
  constructor
  · intro h
    obtain ⟨u, hu, hup⟩ := List.mem_map.1 h
    by_contra hd
    have hmem : u ∈ (uniqTable rows).filter (fun r => decide (r.postcode = p)) :=
      List.mem_filter.2 ⟨hu, by simp [hup]⟩
    rw [uniq_filter rows p, if_neg hd] at hmem
    exact absurd hmem (List.not_mem_nil u)
  · intro hd
    have hmem : aggRow (rowsWithPostcode rows p)
        ∈ (uniqTable rows).filter (fun r => decide (r.postcode = p)) := by
      rw [uniq_filter rows p, if_pos hd]
      exact List.mem_cons_self _ _
    exact List.mem_map.2 ⟨_, (List.mem_filter.1 hmem).1,
      of_decide_eq_true (List.mem_filter.1 hmem).2⟩

theorem delete_filter (rows : List NodeRow) (p : String) :
    (deleteDuplicates rows (uniqTable rows)).filter (fun r => decide (r.postcode = p))
      = if p ∈ (uniqTable rows).map (fun u => u.postcode) then []
        else rowsWithPostcode rows p := by
  unfold deleteDuplicates
  rw [List.filter_filter]
  by_cases hmem : p ∈ (uniqTable rows).map (fun u => u.postcode)
  · rw [if_pos hmem]
    rw [List.filter_eq_nil_iff]
    intro r hr
    simp only [Bool.and_eq_true, decide_eq_true_eq, not_and]
    intro heq
    rw [heq]
    exact fun hcon => hcon hmem
  · rw [if_neg hmem]
    unfold rowsWithPostcode
    apply List.filter_congr
    intro r hr
    by_cases hrp : r.postcode = p
    · simp [hrp, hmem]
    · simp [hrp]

theorem reinsert_filter (rows : List NodeRow) (p : String) :
    (reinsertUnique (uniqTable rows)).filter (fun r => decide (r.postcode = p))
      = ((uniqTable rows).filter (fun r => decide (r.postcode = p))).map
          (fun u => { u with house_number := none }) := by
  unfold reinsertUnique
  rw [List.filter_map]
  congr 1

/-- C3: the pass groups rows by postcode; a postcode group with exactly
one distinct street value is collapsed to a single averaged-coordinate row
with house_number cleared, and every other group is left untouched.  In
particular the spec's four-row scenario collapses the two "AB1"/"X" rows
into one averaged row and leaves the two "CD2" rows (distinct streets)
untouched. -/
theorem c3_dedup_pass :
    (∀ (rows : List NodeRow) (p : String),
        (processData rows).filter (fun r => decide (r.postcode = p))
          = if distinctStreetCount (rowsWithPostcode rows p) = 1 then
              [{ aggRow (rowsWithPostcode rows p) with house_number := none }]
            else rowsWithPostcode rows p)
    ∧ processData [exRow1, exRow2, exRow3, exRow4] = [exRow3, exRow4, exRowAvg] := by
  constructor
  · intro rows p
    unfold processData
    rw [List.filter_append, delete_filter rows p, reinsert_filter rows p,
      uniq_filter rows p]
    by_cases hd : distinctStreetCount (rowsWithPostcode rows p) = 1
    · rw [if_pos ((mem_uniq_postcodes rows p).2 hd), if_pos hd, if_pos hd]
      simp
    · rw [if_neg hd, if_neg (fun hm => hd ((mem_uniq_postcodes rows p).1 hm)),
        if_neg hd]
      simp
  · have hun : uniqTable [exRow1, exRow2, exRow3, exRow4]
        = [aggRow (rowsWithPostcode [exRow1, exRow2, exRow3, exRow4] "AB1")] := by
      rfl
    have hg : rowsWithPostcode [exRow1, exRow2, exRow3, exRow4] "AB1"
        = [exRow1, exRow2] := by decide
    have hagg : ({ aggRow (rowsWithPostcode [exRow1, exRow2, exRow3, exRow4] "AB1") with
        house_number := none } : NodeRow) = exRowAvg := by
      rw [hg]
      simp only [aggRow, List.headI, List.map_cons, List.map_nil, List.sum_cons,
        List.sum_nil, List.length_cons, List.length_nil]
      norm_num [exRow1, exRow2, exRowAvg]
    have hdel : deleteDuplicates [exRow1, exRow2, exRow3, exRow4]
        [aggRow (rowsWithPostcode [exRow1, exRow2, exRow3, exRow4] "AB1")]
        = [exRow3, exRow4] := by decide
    unfold processData
    rw [hun, hdel]
    show [exRow3, exRow4] ++
        [{ aggRow (rowsWithPostcode [exRow1, exRow2, exRow3, exRow4] "AB1") with
            house_number := none }] = [exRow3, exRow4, exRowAvg]
    rw [hagg]
    rfl

end PostcodeDb
